import Mathlib

/-!
Verification of the secret-reconciliation action (`src/main.js`).

The JavaScript `run` function is embedded shallowly:

* `parseSecrets` embeds the parsing pipeline
  (`secrets.split(',').map(trim).filter(nonempty).map(split('='))`).
* The Google Secret Manager client is modelled by an `Env` of response
  functions; each response may depend on the request and on how many times
  the same operation has already been issued for the same resource name
  (so a repeated call may answer differently, as a real service would).
* Every client call is recorded, together with whether it succeeded, in a
  trace of `Event`s; `core.warning` / `core.info` messages are recorded in
  the same trace, and `core.setFailed` / `core.setOutput` become the
  `Outcome` of the run.  `core.getInput` is modelled as handing `run` the
  two input strings.
* Thrown JavaScript values are modelled by `Thrown`: whether the value is
  an `Error` instance, its optional numeric `code` property and its
  `message` property.

Nothing inside the embedded `run` can throw besides the awaited client
calls, so the outer `try`/`catch` of the source (which only guards
`setOutput`) has no reachable `catch` arm and is not represented.
-/

/-- Whitespace characters removed by JavaScript `String.prototype.trim`
(ECMAScript WhiteSpace and LineTerminator code points). -/
def jsWhitespace : List Char :=
  [' ', '\t', '\n', '\r', '\x0b', '\x0c',
   '\u00A0', '\u1680', '\u2000', '\u2001', '\u2002', '\u2003', '\u2004',
   '\u2005', '\u2006', '\u2007', '\u2008', '\u2009', '\u200A', '\u2028',
   '\u2029', '\u202F', '\u205F', '\u3000', '\uFEFF']

def jsIsWhitespace (c : Char) : Bool := jsWhitespace.contains c

/-- JavaScript `s.trim()`: strip leading and trailing whitespace. -/
def jsTrim (s : String) : String :=
  String.mk (((s.data.dropWhile jsIsWhitespace).reverse.dropWhile jsIsWhitespace).reverse)

/-- JavaScript `s.split(sep)` for a one-character separator, on the
character list: `"" ↦ [""]`, `"a," ↦ ["a", ""]`, etc. -/
def splitCharList (sep : Char) : List Char → List (List Char)
  | [] => [[]]
  | c :: cs =>
    if c = sep then [] :: splitCharList sep cs
    else
      match splitCharList sep cs with
      | [] => [[c]]
      | h :: t => (c :: h) :: t

/-- JavaScript `s.split(sep)` for a one-character separator. -/
def splitChar (sep : Char) (s : String) : List String :=
  (splitCharList sep s.data).map String.mk

/-- One parsed `key=value` entry (`{ key, value }` in the source). -/
structure SecretEntry where
  key : String
  value : String
deriving DecidableEq, Repr

/-- Embeds the parsing pipeline of `run`:
`secrets.split(',').map(item => item.trim()).filter(item => item.length > 0)`
followed by `const [key, value] = item.split('=')` with
`value === undefined ? '' : value`, trimming both. -/
def parseSecrets (secrets : String) : List SecretEntry :=
  (((splitChar ',' secrets).map jsTrim).filter (fun item => 0 < item.length)).map
    (fun item =>
      let parts := splitChar '=' item
      { key := jsTrim (parts.headD ""),
        value := jsTrim ((parts.drop 1).headD "") })

/-- UTF-8 encoding of one character (code point), as `Buffer.from(·, 'utf8')`
produces it. -/
def charUtf8 (c : Char) : List Nat :=
  let n := c.toNat
  if n < 128 then [n]
  else if n < 2048 then [192 + n / 64, 128 + n % 64]
  else if n < 65536 then [224 + n / 4096, 128 + (n / 64) % 64, 128 + n % 64]
  else [240 + n / 262144, 128 + (n / 4096) % 64, 128 + (n / 64) % 64, 128 + n % 64]

/-- Byte content of `Buffer.from(s, 'utf8')`. -/
def utf8Bytes (s : String) : List Nat := s.data.flatMap charUtf8

/-- A thrown JavaScript value, as the `catch` blocks of the source inspect
it: `isError` is `value instanceof Error`, `code` its numeric `code`
property (if any), `message` its `message` property. -/
structure Thrown where
  isError : Bool
  code : Option Int
  message : String
deriving DecidableEq, Repr

/-- The `payload` object of an `accessSecretVersion` response; `data` is
the byte buffer, represented by its `toString('utf8')` decoding (which in
JavaScript always yields a string, replacing invalid sequences). -/
structure SecretPayload where
  data : Option String
deriving DecidableEq, Repr

/-- An `accessSecretVersion` success response (`versionResponse`). -/
structure AccessVersionResponse where
  payload : Option SecretPayload
deriving DecidableEq, Repr

/-- Embeds `versionResponse.payload?.data?.toString('utf8')`. -/
def currentData (r : AccessVersionResponse) : Option String :=
  r.payload.bind (fun p => p.data)

/-- The replication policy the source passes to `createSecret`
(`{ replication: { automatic: {} } }`, always). -/
inductive ReplicationPolicy where
  | automatic
deriving DecidableEq, Repr

/-- Observable events of a run: every client call (with its request data
and whether it succeeded) and every logged message, in order. -/
inductive Event where
  | getSecretCall (name : String) (ok : Bool)
  | createSecretCall (parent : String) (secretId : String)
      (replication : ReplicationPolicy) (ok : Bool)
  | addSecretVersionCall (parent : String) (data : List Nat) (ok : Bool)
  | accessSecretVersionCall (name : String) (ok : Bool)
  | warning (msg : String)
  | info (msg : String)
deriving DecidableEq, Repr

def isGetCall (name : String) : Event → Bool
  | Event.getSecretCall n _ => n = name
  | _ => false

def isCreateCall (secretId : String) : Event → Bool
  | Event.createSecretCall _ sid _ _ => sid = secretId
  | _ => false

def isAddCall (parent : String) : Event → Bool
  | Event.addSecretVersionCall p _ _ => p = parent
  | _ => false

def isAccessCall (name : String) : Event → Bool
  | Event.accessSecretVersionCall n _ => n = name
  | _ => false

/-- Number of `getSecret` calls for `name` in a trace. -/
def countGet (name : String) (tr : List Event) : Nat := tr.countP (isGetCall name)

/-- Number of `createSecret` calls for `secretId` in a trace. -/
def countCreate (secretId : String) (tr : List Event) : Nat := tr.countP (isCreateCall secretId)

/-- Number of `addSecretVersion` calls for `parent` in a trace. -/
def countAdd (parent : String) (tr : List Event) : Nat := tr.countP (isAddCall parent)

/-- Number of `accessSecretVersion` calls for `name` in a trace. -/
def countAccess (name : String) (tr : List Event) : Nat := tr.countP (isAccessCall name)

/-- The secret-storage service: for each operation, the response to the
`i`-th call (counted per resource name) carrying the given request. -/
structure Env where
  getSecret : String → Nat → Except Thrown Unit
  createSecret : String → String → Nat → Except Thrown Unit
  addSecretVersion : String → List Nat → Nat → Except Thrown Unit
  accessSecretVersion : String → Nat → Except Thrown AccessVersionResponse

/-- The `parent` string of the source: `projects/${projectId}`. -/
def parentName (projectId : String) : String := "projects/" ++ projectId

/-- The `secretName` string of the source:
`projects/${projectId}/secrets/${secret.key}`. -/
def secretName (projectId key : String) : String :=
  "projects/" ++ projectId ++ "/secrets/" ++ key

/-- The name used to access the latest version: `${secretName}/versions/latest`. -/
def latestName (projectId key : String) : String :=
  secretName projectId key ++ "/versions/latest"

def checkFailMsg (key : String) (err : Thrown) : String :=
  if err.isError then "Error checking secret " ++ key ++ ": " ++ err.message
  else "An unknown error occurred while checking secret " ++ key

def createFailMsg (key : String) (err : Thrown) : String :=
  if err.isError then
    "Error creating secret " ++ key ++ " or adding initial version: " ++ err.message
  else "An unknown error occurred while creating secret " ++ key

def accessFailMsg (key : String) (err : Thrown) : String :=
  if err.isError then "Error accessing/updating secret " ++ key ++ ": " ++ err.message
  else "An unknown error occurred while accessing/updating secret " ++ key

def addAfterAccessFailMsg (key : String) (err : Thrown) : String :=
  if err.isError then
    "Error adding version to secret " ++ key ++ " after failing to access latest: " ++ err.message
  else "An unknown error occurred while adding version to secret " ++ key

def noDataWarning (key : String) : String :=
  "Could not retrieve current data for secret " ++ key ++ ". Adding a new version."

def noLatestWarning (key : String) : String :=
  "Secret " ++ key ++ " exists but failed to access latest version (perhaps no enabled versions?). Adding a new version."

def upToDateInfo (key : String) : String := "Secret " ++ key ++ " is already up-to-date."

def updatedInfo (key : String) : String := "Updated secret " ++ key ++ " with a new version."

def invalidFormatMsg : String := "Invalid secrets format: Found an entry with an empty key."

/-- Result of processing one entry (or a tail of entries): either continue
with the extended trace and updated-keys list, or abort the whole run with
a failure message (`core.setFailed` followed by `return`). -/
inductive StepResult where
  | ok (tr : List Event) (upd : List String)
  | fatal (tr : List Event) (msg : String)
deriving DecidableEq, Repr

/-- The `catch` block of the update path.  `trc` already records the
failed call that raised `err` (either `accessSecretVersion` or an
`addSecretVersion` from the branches above it).  On `code === 5` the
source warns and retries `addSecretVersion` once; any other error is
fatal. -/
def updateCatch (env : Env) (projectId : String) (e : SecretEntry)
    (trc : List Event) (upd : List String) (err : Thrown) : StepResult :=
  let name := secretName projectId e.key
  if err.code = some 5 then
    let trw := trc ++ [Event.warning (noLatestWarning e.key)]
    match env.addSecretVersion name (utf8Bytes e.value) (countAdd name trw) with
    | Except.ok _ =>
        StepResult.ok (trw ++ [Event.addSecretVersionCall name (utf8Bytes e.value) true])
          (upd ++ [e.key])
    | Except.error err2 =>
        StepResult.fatal (trw ++ [Event.addSecretVersionCall name (utf8Bytes e.value) false])
          (addAfterAccessFailMsg e.key err2)
  else
    StepResult.fatal trc (accessFailMsg e.key err)

/-- The body of the `for (const secret of secretsArray)` loop for one
entry: existence check, then create path or compare-and-update path. -/
def processEntry (env : Env) (projectId : String) (e : SecretEntry)
    (tr : List Event) (upd : List String) : StepResult :=
  let name := secretName projectId e.key
  let latest := latestName projectId e.key
  match env.getSecret name (countGet name tr) with
  | Except.error err =>
    if err.code = some 5 then
      -- secret not found: create it, then add the initial version
      let tr0 := tr ++ [Event.getSecretCall name false]
      match env.createSecret (parentName projectId) e.key (countCreate e.key tr0) with
      | Except.error err2 =>
          StepResult.fatal
            (tr0 ++ [Event.createSecretCall (parentName projectId) e.key ReplicationPolicy.automatic false])
            (createFailMsg e.key err2)
      | Except.ok _ =>
        let tr1 := tr0 ++ [Event.createSecretCall (parentName projectId) e.key ReplicationPolicy.automatic true]
        match env.addSecretVersion name (utf8Bytes e.value) (countAdd name tr1) with
        | Except.error err3 =>
            StepResult.fatal (tr1 ++ [Event.addSecretVersionCall name (utf8Bytes e.value) false])
              (createFailMsg e.key err3)
        | Except.ok _ =>
            StepResult.ok (tr1 ++ [Event.addSecretVersionCall name (utf8Bytes e.value) true])
              (upd ++ [e.key])
    else
      StepResult.fatal (tr ++ [Event.getSecretCall name false]) (checkFailMsg e.key err)
  | Except.ok _ =>
    let tr1 := tr ++ [Event.getSecretCall name true]
    match env.accessSecretVersion latest (countAccess latest tr1) with
    | Except.error err =>
        updateCatch env projectId e (tr1 ++ [Event.accessSecretVersionCall latest false]) upd err
    | Except.ok resp =>
      let tr2 := tr1 ++ [Event.accessSecretVersionCall latest true]
      match currentData resp with
      | none =>
        -- could not read the current value: warn and update anyway
        let tr3 := tr2 ++ [Event.warning (noDataWarning e.key)]
        match env.addSecretVersion name (utf8Bytes e.value) (countAdd name tr3) with
        | Except.ok _ =>
            StepResult.ok (tr3 ++ [Event.addSecretVersionCall name (utf8Bytes e.value) true])
              (upd ++ [e.key])
        | Except.error err =>
            updateCatch env projectId e
              (tr3 ++ [Event.addSecretVersionCall name (utf8Bytes e.value) false]) upd err
      | some cur =>
        if cur = e.value then
          StepResult.ok (tr2 ++ [Event.info (upToDateInfo e.key)]) upd
        else
          match env.addSecretVersion name (utf8Bytes e.value) (countAdd name tr2) with
          | Except.ok _ =>
              StepResult.ok
                (tr2 ++ [Event.addSecretVersionCall name (utf8Bytes e.value) true,
                         Event.info (updatedInfo e.key)])
                (upd ++ [e.key])
          | Except.error err =>
              updateCatch env projectId e
                (tr2 ++ [Event.addSecretVersionCall name (utf8Bytes e.value) false]) upd err

/-- The entry loop of `run`, threading the trace and `updatedSecrets`. -/
def runEntries (env : Env) (projectId : String) :
    List SecretEntry → List Event → List String → StepResult
  | [], tr, upd => StepResult.ok tr upd
  | e :: es, tr, upd =>
    match processEntry env projectId e tr upd with
    | StepResult.ok tr1 upd1 => runEntries env projectId es tr1 upd1
    | StepResult.fatal trf m => StepResult.fatal trf m

/-- Final observable outcome of a run: `core.setOutput('updated_secrets', …)`
on success, the `core.setFailed` message otherwise. -/
inductive Outcome where
  | success (updated : List String)
  | failed (msg : String)
deriving DecidableEq, Repr

/-- The whole `run` function: parse, validate keys, reconcile every entry,
then emit the output.  Returns the outcome and the event trace. -/
def run (projectId secrets : String) (env : Env) : Outcome × List Event :=
  let secretsArray := parseSecrets secrets
  if secretsArray.any (fun s => s.key = "") then
    (Outcome.failed invalidFormatMsg, [])
  else
    match runEntries env projectId secretsArray [] [] with
    | StepResult.ok tr upd => (Outcome.success upd, tr)
    | StepResult.fatal tr m => (Outcome.failed m, tr)

def errNotFound : Thrown := { isError := true, code := some 5, message := "Secret not found" }

def envExistsData (s : String) : Env where
  getSecret := fun _ _ => Except.ok ()
  createSecret := fun _ _ _ => Except.ok ()
  addSecretVersion := fun _ _ _ => Except.ok ()
  accessSecretVersion := fun _ _ => Except.ok { payload := some { data := some s } }

def envAbsentOk : Env where
  getSecret := fun _ _ => Except.error errNotFound
  createSecret := fun _ _ _ => Except.ok ()
  addSecretVersion := fun _ _ _ => Except.ok ()
  accessSecretVersion := fun _ _ =>
    Except.error { isError := true, code := some 5, message := "Version not found" }

/-- Parsing as claim C3 words it: each kept segment is split on the FIRST
occurrence of the equals sign into a key and an optional value (the whole
remainder of the segment), an absent value becoming the empty string, and
both parts are trimmed. -/
def parseSecretsClaimed (secrets : String) : List SecretEntry :=
  (((splitChar ',' secrets).map jsTrim).filter (fun item => 0 < item.length)).map
    (fun item =>
      match splitChar '=' item with
      | [] => { key := jsTrim "", value := jsTrim "" }
      | [k] => { key := jsTrim k, value := jsTrim "" }
      | k :: rest => { key := jsTrim k, value := jsTrim (String.intercalate "=" rest) })

/-- Parsing as the amended claim words it: each kept segment is split on
every equals sign, the key is the first field and the value is the second
field when present (so characters from the second equals sign on are
discarded), an absent second field becoming the empty string, and both
parts are trimmed. -/
def parseSecretsAmended (secrets : String) : List SecretEntry :=
  (((splitChar ',' secrets).map jsTrim).filter (fun item => 0 < item.length)).map
    (fun item =>
      match splitChar '=' item with
      | [] => { key := jsTrim "", value := jsTrim "" }
      | [k] => { key := jsTrim k, value := jsTrim "" }
      | k :: v :: _ => { key := jsTrim k, value := jsTrim v })

def envExistsNoVersion : Env where
  getSecret := fun _ _ => Except.ok ()
  createSecret := fun _ _ _ => Except.ok ()
  addSecretVersion := fun _ _ _ => Except.ok ()
  accessSecretVersion := fun _ _ =>
    Except.error { isError := true, code := some 5, message := "Version not found" }

def envExistsNoData : Env where
  getSecret := fun _ _ => Except.ok ()
  createSecret := fun _ _ _ => Except.ok ()
  addSecretVersion := fun _ _ _ => Except.ok ()
  accessSecretVersion := fun _ _ => Except.ok { payload := none }

def errAddGone : Thrown := { isError := true, code := some 5, message := "no such secret" }

/-- Answers the first add-version call for a key with code 5 and the
second one with success; the secret exists with a stale value. -/
def envFlakyAdd : Env where
  getSecret := fun _ _ => Except.ok ()
  createSecret := fun _ _ _ => Except.ok ()
  addSecretVersion := fun _ _ i =>
    if i = 0 then Except.error errAddGone else Except.ok ()
  accessSecretVersion := fun _ _ => Except.ok { payload := some { data := some "old" } }

def errPerm : Thrown := { isError := true, code := some 7, message := "permission denied" }

def envCheckFail : Env where
  getSecret := fun _ _ => Except.error errPerm
  createSecret := fun _ _ _ => Except.ok ()
  addSecretVersion := fun _ _ _ => Except.ok ()
  accessSecretVersion := fun _ _ => Except.ok { payload := none }

/-- Successful add-version events recorded for an event. -/
def isSuccAdd (name : String) : Event → Bool
  | Event.addSecretVersionCall p _ true => p = name
  | _ => false

def isSuccCreate (sid : String) : Event → Bool
  | Event.createSecretCall _ s _ true => s = sid
  | _ => false

/-- Number of SUCCESSFUL add-version calls for a key's secret in a trace. -/
def succAdds (projectId key : String) (tr : List Event) : Nat :=
  tr.countP (isSuccAdd (secretName projectId key))

/-- Number of SUCCESSFUL create calls for a key in a trace. -/
def succCreates (key : String) (tr : List Event) : Nat :=
  tr.countP (isSuccCreate key)

/-- Number of successful write (create or add-version) calls for a key. -/
def succWrites (projectId key : String) (tr : List Event) : Nat :=
  succAdds projectId key tr + succCreates key tr

@[simp] theorem countGet_append (name : String) (l1 l2 : List Event) :
    countGet name (l1 ++ l2) = countGet name l1 + countGet name l2 := by
  simp [countGet, List.countP_append]

@[simp] theorem countCreate_append (sid : String) (l1 l2 : List Event) :
    countCreate sid (l1 ++ l2) = countCreate sid l1 + countCreate sid l2 := by
  simp [countCreate, List.countP_append]

@[simp] theorem countAdd_append (parent : String) (l1 l2 : List Event) :
    countAdd parent (l1 ++ l2) = countAdd parent l1 + countAdd parent l2 := by
  simp [countAdd, List.countP_append]

@[simp] theorem countAccess_append (name : String) (l1 l2 : List Event) :
    countAccess name (l1 ++ l2) = countAccess name l1 + countAccess name l2 := by
  simp [countAccess, List.countP_append]

@[simp] theorem countGet_nil (name : String) : countGet name [] = 0 := rfl

@[simp] theorem countCreate_nil (sid : String) : countCreate sid [] = 0 := rfl

@[simp] theorem countAdd_nil (parent : String) : countAdd parent [] = 0 := rfl

@[simp] theorem countAccess_nil (name : String) : countAccess name [] = 0 := rfl

@[simp] theorem countGet_cons_get (name n : String) (b : Bool) (l : List Event) :
    countGet name (Event.getSecretCall n b :: l) =
      (if n = name then 1 else 0) + countGet name l := by
  simp [countGet, List.countP_cons, isGetCall]; split <;> simp [Nat.add_comm]

@[simp] theorem countGet_cons_create (name p sid : String) (r : ReplicationPolicy) (b : Bool)
    (l : List Event) :
    countGet name (Event.createSecretCall p sid r b :: l) = countGet name l := by
  simp [countGet, List.countP_cons, isGetCall]

@[simp] theorem countGet_cons_add (name p : String) (d : List Nat) (b : Bool) (l : List Event) :
    countGet name (Event.addSecretVersionCall p d b :: l) = countGet name l := by
  simp [countGet, List.countP_cons, isGetCall]

@[simp] theorem countGet_cons_access (name n : String) (b : Bool) (l : List Event) :
    countGet name (Event.accessSecretVersionCall n b :: l) = countGet name l := by
  simp [countGet, List.countP_cons, isGetCall]

@[simp] theorem countGet_cons_warning (name m : String) (l : List Event) :
    countGet name (Event.warning m :: l) = countGet name l := by
  simp [countGet, List.countP_cons, isGetCall]

@[simp] theorem countGet_cons_info (name m : String) (l : List Event) :
    countGet name (Event.info m :: l) = countGet name l := by
  simp [countGet, List.countP_cons, isGetCall]

@[simp] theorem countCreate_cons_get (sid n : String) (b : Bool) (l : List Event) :
    countCreate sid (Event.getSecretCall n b :: l) = countCreate sid l := by
  simp [countCreate, List.countP_cons, isCreateCall]

@[simp] theorem countCreate_cons_create (sid p s : String) (r : ReplicationPolicy) (b : Bool)
    (l : List Event) :
    countCreate sid (Event.createSecretCall p s r b :: l) =
      (if s = sid then 1 else 0) + countCreate sid l := by
  simp [countCreate, List.countP_cons, isCreateCall]; split <;> simp [Nat.add_comm]

@[simp] theorem countCreate_cons_add (sid p : String) (d : List Nat) (b : Bool) (l : List Event) :
    countCreate sid (Event.addSecretVersionCall p d b :: l) = countCreate sid l := by
  simp [countCreate, List.countP_cons, isCreateCall]

@[simp] theorem countCreate_cons_access (sid n : String) (b : Bool) (l : List Event) :
    countCreate sid (Event.accessSecretVersionCall n b :: l) = countCreate sid l := by
  simp [countCreate, List.countP_cons, isCreateCall]

@[simp] theorem countCreate_cons_warning (sid m : String) (l : List Event) :
    countCreate sid (Event.warning m :: l) = countCreate sid l := by
  simp [countCreate, List.countP_cons, isCreateCall]

@[simp] theorem countCreate_cons_info (sid m : String) (l : List Event) :
    countCreate sid (Event.info m :: l) = countCreate sid l := by
  simp [countCreate, List.countP_cons, isCreateCall]

@[simp] theorem countAdd_cons_get (parent n : String) (b : Bool) (l : List Event) :
    countAdd parent (Event.getSecretCall n b :: l) = countAdd parent l := by
  simp [countAdd, List.countP_cons, isAddCall]

@[simp] theorem countAdd_cons_create (parent p sid : String) (r : ReplicationPolicy) (b : Bool)
    (l : List Event) :
    countAdd parent (Event.createSecretCall p sid r b :: l) = countAdd parent l := by
  simp [countAdd, List.countP_cons, isAddCall]

@[simp] theorem countAdd_cons_add (parent p : String) (d : List Nat) (b : Bool) (l : List Event) :
    countAdd parent (Event.addSecretVersionCall p d b :: l) =
      (if p = parent then 1 else 0) + countAdd parent l := by
  simp [countAdd, List.countP_cons, isAddCall]; split <;> simp [Nat.add_comm]

@[simp] theorem countAdd_cons_access (parent n : String) (b : Bool) (l : List Event) :
    countAdd parent (Event.accessSecretVersionCall n b :: l) = countAdd parent l := by
  simp [countAdd, List.countP_cons, isAddCall]

@[simp] theorem countAdd_cons_warning (parent m : String) (l : List Event) :
    countAdd parent (Event.warning m :: l) = countAdd parent l := by
  simp [countAdd, List.countP_cons, isAddCall]

@[simp] theorem countAdd_cons_info (parent m : String) (l : List Event) :
    countAdd parent (Event.info m :: l) = countAdd parent l := by
  simp [countAdd, List.countP_cons, isAddCall]

@[simp] theorem countAccess_cons_get (name n : String) (b : Bool) (l : List Event) :
    countAccess name (Event.getSecretCall n b :: l) = countAccess name l := by
  simp [countAccess, List.countP_cons, isAccessCall]

@[simp] theorem countAccess_cons_create (name p sid : String) (r : ReplicationPolicy) (b : Bool)
    (l : List Event) :
    countAccess name (Event.createSecretCall p sid r b :: l) = countAccess name l := by
  simp [countAccess, List.countP_cons, isAccessCall]

@[simp] theorem countAccess_cons_add (name p : String) (d : List Nat) (b : Bool) (l : List Event) :
    countAccess name (Event.addSecretVersionCall p d b :: l) = countAccess name l := by
  simp [countAccess, List.countP_cons, isAccessCall]

@[simp] theorem countAccess_cons_access (name n : String) (b : Bool) (l : List Event) :
    countAccess name (Event.accessSecretVersionCall n b :: l) =
      (if n = name then 1 else 0) + countAccess name l := by
  simp [countAccess, List.countP_cons, isAccessCall]; split <;> simp [Nat.add_comm]

@[simp] theorem countAccess_cons_warning (name m : String) (l : List Event) :
    countAccess name (Event.warning m :: l) = countAccess name l := by
  simp [countAccess, List.countP_cons, isAccessCall]

@[simp] theorem countAccess_cons_info (name m : String) (l : List Event) :
    countAccess name (Event.info m :: l) = countAccess name l := by
  simp [countAccess, List.countP_cons, isAccessCall]

/-- C1: for an entry whose secret exists and whose latest version's payload
decodes to a string, processing the entry performs no create and no
add-version call and leaves the updated-keys list unchanged when the
decoded value equals the desired value, and performs exactly one
add-version call carrying the desired value's UTF-8 bytes and appends the
key when it differs. -/
theorem C1_compare_and_update (env : Env) (projectId : String) (e : SecretEntry)
    (tr : List Event) (upd : List String) (resp : AccessVersionResponse) (cur : String)
    (hget : env.getSecret (secretName projectId e.key)
      (countGet (secretName projectId e.key) tr) = Except.ok ())
    (hacc : env.accessSecretVersion (latestName projectId e.key)
      (countAccess (latestName projectId e.key) tr) = Except.ok resp)
    (hcur : currentData resp = some cur) :
    (cur = e.value →
      processEntry env projectId e tr upd =
        StepResult.ok
          (tr ++ [Event.getSecretCall (secretName projectId e.key) true,
                  Event.accessSecretVersionCall (latestName projectId e.key) true,
                  Event.info (upToDateInfo e.key)]) upd) ∧
    (cur ≠ e.value →
      env.addSecretVersion (secretName projectId e.key) (utf8Bytes e.value)
        (countAdd (secretName projectId e.key) tr) = Except.ok () →
      processEntry env projectId e tr upd =
        StepResult.ok
          (tr ++ [Event.getSecretCall (secretName projectId e.key) true,
                  Event.accessSecretVersionCall (latestName projectId e.key) true,
                  Event.addSecretVersionCall (secretName projectId e.key) (utf8Bytes e.value) true,
                  Event.info (updatedInfo e.key)]) (upd ++ [e.key])) := by
  constructor
  · intro hEq
    simp [processEntry, hget, hacc, hcur, hEq]
  · intro hNe hadd
    simp [processEntry, hget, hacc, hcur, hNe, hadd]

theorem C1_compare_and_update_witness :
    processEntry (envExistsData "v") "p" { key := "K", value := "v" } [] [] =
      StepResult.ok [Event.getSecretCall (secretName "p" "K") true,
                     Event.accessSecretVersionCall (latestName "p" "K") true,
                     Event.info (upToDateInfo "K")] [] ∧
    processEntry (envExistsData "old") "p" { key := "K", value := "new" } [] [] =
      StepResult.ok [Event.getSecretCall (secretName "p" "K") true,
                     Event.accessSecretVersionCall (latestName "p" "K") true,
                     Event.addSecretVersionCall (secretName "p" "K") (utf8Bytes "new") true,
                     Event.info (updatedInfo "K")] ["K"] :=
  ⟨(C1_compare_and_update (envExistsData "v") "p" { key := "K", value := "v" }
      [] [] { payload := some { data := some "v" } } "v" rfl rfl rfl).1 rfl,
   (C1_compare_and_update (envExistsData "old") "p" { key := "K", value := "new" }
      [] [] { payload := some { data := some "old" } } "old" rfl rfl rfl).2 (by decide) rfl⟩

/-- C2: for an entry whose existence check fails with code 5 (NOT_FOUND),
processing the entry issues exactly one create call (under the project's
parent, with the automatic replication policy) followed by exactly one
add-version call whose payload is the desired value's UTF-8 bytes, and
appends the key to the updated-keys list. -/
theorem C2_create_path (env : Env) (projectId : String) (e : SecretEntry)
    (tr : List Event) (upd : List String) (err : Thrown)
    (hget : env.getSecret (secretName projectId e.key)
      (countGet (secretName projectId e.key) tr) = Except.error err)
    (hcode : err.code = some 5)
    (hcreate : env.createSecret (parentName projectId) e.key
      (countCreate e.key tr) = Except.ok ())
    (hadd : env.addSecretVersion (secretName projectId e.key) (utf8Bytes e.value)
      (countAdd (secretName projectId e.key) tr) = Except.ok ()) :
    processEntry env projectId e tr upd =
      StepResult.ok
        (tr ++ [Event.getSecretCall (secretName projectId e.key) false,
                Event.createSecretCall (parentName projectId) e.key ReplicationPolicy.automatic true,
                Event.addSecretVersionCall (secretName projectId e.key) (utf8Bytes e.value) true])
        (upd ++ [e.key]) := by
  simp [processEntry, hget, hcode, hcreate, hadd]

theorem C2_create_path_witness :
    processEntry envAbsentOk "p" { key := "K", value := "v" } [] [] =
      StepResult.ok
        [Event.getSecretCall (secretName "p" "K") false,
         Event.createSecretCall (parentName "p") "K" ReplicationPolicy.automatic true,
         Event.addSecretVersionCall (secretName "p" "K") (utf8Bytes "v") true] ["K"] :=
  C2_create_path envAbsentOk "p" { key := "K", value := "v" } [] [] errNotFound rfl rfl rfl rfl

/-- C3 counterexample: the code does not split a segment on the first
equals sign only; on `K=a=b` it keeps `a`, not `a=b`, as the value. -/
theorem C3_counterexample :
    parseSecrets "K=a=b" ≠ parseSecretsClaimed "K=a=b" ∧
    parseSecrets "K=a=b" = [{ key := "K", value := "a" }] ∧
    parseSecretsClaimed "K=a=b" = [{ key := "K", value := "a=b" }] := by
  refine ⟨by decide, by decide, by decide⟩

/-- C3 (amended): parsing splits on the comma, trims each segment,
discards segments empty after trimming, splits each remaining segment on
every equals sign taking the first field as key and the second (if any,
else the empty string) as value, trims both, and yields the entries in
input order. -/
theorem C3_parse_amended (secrets : String) :
    parseSecrets secrets = parseSecretsAmended secrets := by
  unfold parseSecrets parseSecretsAmended
  apply List.map_congr_left
  intro item _
  cases hsplit : splitChar '=' item with
  | nil => simp [hsplit]
  | cons k rest =>
    cases rest with
    | nil => simp [hsplit]
    | cons v rest2 => simp [hsplit]

/-- C4: whenever some parsed entry has an empty key, the run fails with
the validation message, makes no call to the service (empty trace) and
emits no success output. -/
theorem C4_empty_key_validation (projectId secrets : String) (env : Env)
    (h : ∃ e ∈ parseSecrets secrets, e.key = "") :
    run projectId secrets env = (Outcome.failed invalidFormatMsg, []) := by
  have hb : (parseSecrets secrets).any (fun s => s.key = "") = true := by
    rcases h with ⟨e, he, hk⟩
    simp only [List.any_eq_true, decide_eq_true_eq]
    exact ⟨e, he, hk⟩
  simp [run, hb]

theorem C4_empty_key_validation_witness :
    run "p" "A=1, =x" envAbsentOk = (Outcome.failed invalidFormatMsg, []) :=
  C4_empty_key_validation "p" "A=1, =x" envAbsentOk
    ⟨{ key := "", value := "x" }, by decide, rfl⟩

/-- C9: an input with no non-empty segment after splitting on the comma
and trimming yields a successful run with no service calls and an empty
updated-secrets output. -/
theorem C9_no_entries (projectId secrets : String) (env : Env)
    (h : ∀ seg ∈ splitChar ',' secrets, jsTrim seg = "") :
    run projectId secrets env = (Outcome.success [], []) := by
  have hf : ((splitChar ',' secrets).map jsTrim).filter (fun item => 0 < item.length) = [] := by
    rw [List.filter_eq_nil_iff]
    intro a ha
    rcases List.mem_map.mp ha with ⟨seg, hseg, rfl⟩
    rw [h seg hseg]
    decide
  have hp : parseSecrets secrets = [] := by
    unfold parseSecrets
    rw [hf, List.map_nil]
  simp [run, hp, runEntries]

theorem C9_no_entries_witness :
    run "p" " , ,," envAbsentOk = (Outcome.success [], []) :=
  C9_no_entries "p" " , ,," envAbsentOk (by decide)

/-- Helper: a fatal first entry short-circuits the remaining entries. -/
theorem runEntries_cons_fatal (env : Env) (projectId : String) (e : SecretEntry)
    (es : List SecretEntry) (tr trf : List Event) (upd : List String) (m : String)
    (h : processEntry env projectId e tr upd = StepResult.fatal trf m) :
    runEntries env projectId (e :: es) tr upd = StepResult.fatal trf m := by
  simp [runEntries, h]

/-- C6: for an entry whose secret exists but whose latest-version access
fails with code 5, the run warns and issues exactly one add-version call
with the desired value's bytes, appending the key on success; if that
add-version call fails, the whole batch aborts with a failure report. -/
theorem C6_access_not_found (env : Env) (projectId : String) (e : SecretEntry)
    (tr : List Event) (upd : List String) (err : Thrown)
    (hget : env.getSecret (secretName projectId e.key)
      (countGet (secretName projectId e.key) tr) = Except.ok ())
    (hacc : env.accessSecretVersion (latestName projectId e.key)
      (countAccess (latestName projectId e.key) tr) = Except.error err)
    (hcode : err.code = some 5) :
    (env.addSecretVersion (secretName projectId e.key) (utf8Bytes e.value)
        (countAdd (secretName projectId e.key) tr) = Except.ok () →
      processEntry env projectId e tr upd =
        StepResult.ok
          (tr ++ [Event.getSecretCall (secretName projectId e.key) true,
                  Event.accessSecretVersionCall (latestName projectId e.key) false,
                  Event.warning (noLatestWarning e.key),
                  Event.addSecretVersionCall (secretName projectId e.key) (utf8Bytes e.value) true])
          (upd ++ [e.key])) ∧
    (∀ err2 es, env.addSecretVersion (secretName projectId e.key) (utf8Bytes e.value)
        (countAdd (secretName projectId e.key) tr) = Except.error err2 →
      runEntries env projectId (e :: es) tr upd =
        StepResult.fatal
          (tr ++ [Event.getSecretCall (secretName projectId e.key) true,
                  Event.accessSecretVersionCall (latestName projectId e.key) false,
                  Event.warning (noLatestWarning e.key),
                  Event.addSecretVersionCall (secretName projectId e.key) (utf8Bytes e.value) false])
          (addAfterAccessFailMsg e.key err2)) := by
  constructor
  · intro hadd
    simp [processEntry, updateCatch, hget, hacc, hcode, hadd]
  · intro err2 es hadd
    apply runEntries_cons_fatal
    simp [processEntry, updateCatch, hget, hacc, hcode, hadd]

theorem C6_access_not_found_witness :
    processEntry envExistsNoVersion "p" { key := "K", value := "v" } [] [] =
      StepResult.ok
        [Event.getSecretCall (secretName "p" "K") true,
         Event.accessSecretVersionCall (latestName "p" "K") false,
         Event.warning (noLatestWarning "K"),
         Event.addSecretVersionCall (secretName "p" "K") (utf8Bytes "v") true] ["K"] :=
  (C6_access_not_found envExistsNoVersion "p" { key := "K", value := "v" } [] []
    { isError := true, code := some 5, message := "Version not found" } rfl rfl rfl).1 rfl

/-- C7: for an entry whose secret exists and whose latest-version access
succeeds but yields an absent or undecodable payload, the run warns, adds
a new version with the desired value's bytes and appends the key. -/
theorem C7_missing_payload (env : Env) (projectId : String) (e : SecretEntry)
    (tr : List Event) (upd : List String) (resp : AccessVersionResponse)
    (hget : env.getSecret (secretName projectId e.key)
      (countGet (secretName projectId e.key) tr) = Except.ok ())
    (hacc : env.accessSecretVersion (latestName projectId e.key)
      (countAccess (latestName projectId e.key) tr) = Except.ok resp)
    (hcur : currentData resp = none)
    (hadd : env.addSecretVersion (secretName projectId e.key) (utf8Bytes e.value)
      (countAdd (secretName projectId e.key) tr) = Except.ok ()) :
    processEntry env projectId e tr upd =
      StepResult.ok
        (tr ++ [Event.getSecretCall (secretName projectId e.key) true,
                Event.accessSecretVersionCall (latestName projectId e.key) true,
                Event.warning (noDataWarning e.key),
                Event.addSecretVersionCall (secretName projectId e.key) (utf8Bytes e.value) true])
        (upd ++ [e.key]) := by
  simp [processEntry, hget, hacc, hcur, hadd]

theorem C7_missing_payload_witness :
    processEntry envExistsNoData "p" { key := "K", value := "v" } [] [] =
      StepResult.ok
        [Event.getSecretCall (secretName "p" "K") true,
         Event.accessSecretVersionCall (latestName "p" "K") true,
         Event.warning (noDataWarning "K"),
         Event.addSecretVersionCall (secretName "p" "K") (utf8Bytes "v") true] ["K"] :=
  C7_missing_payload envExistsNoData "p" { key := "K", value := "v" } [] []
    { payload := none } rfl rfl rfl rfl

/-- C10: on the update path (different value, or unreadable payload), if
the first add-version call rejects with code 5 the run does not abort: it
warns and issues one further add-version call for the same key, appending
the key only if that second call succeeds; a failure of the second call
aborts the batch. -/
theorem C10_retry_add_version (env : Env) (projectId : String) (e : SecretEntry)
    (tr : List Event) (upd : List String) :
    (∀ resp cur errA,
      env.getSecret (secretName projectId e.key)
        (countGet (secretName projectId e.key) tr) = Except.ok () →
      env.accessSecretVersion (latestName projectId e.key)
        (countAccess (latestName projectId e.key) tr) = Except.ok resp →
      currentData resp = some cur → cur ≠ e.value →
      env.addSecretVersion (secretName projectId e.key) (utf8Bytes e.value)
        (countAdd (secretName projectId e.key) tr) = Except.error errA →
      errA.code = some 5 →
      (env.addSecretVersion (secretName projectId e.key) (utf8Bytes e.value)
          (countAdd (secretName projectId e.key) tr + 1) = Except.ok () →
        processEntry env projectId e tr upd =
          StepResult.ok
            (tr ++ [Event.getSecretCall (secretName projectId e.key) true,
                    Event.accessSecretVersionCall (latestName projectId e.key) true,
                    Event.addSecretVersionCall (secretName projectId e.key) (utf8Bytes e.value) false,
                    Event.warning (noLatestWarning e.key),
                    Event.addSecretVersionCall (secretName projectId e.key) (utf8Bytes e.value) true])
            (upd ++ [e.key])) ∧
      (∀ errB es,
        env.addSecretVersion (secretName projectId e.key) (utf8Bytes e.value)
          (countAdd (secretName projectId e.key) tr + 1) = Except.error errB →
        runEntries env projectId (e :: es) tr upd =
          StepResult.fatal
            (tr ++ [Event.getSecretCall (secretName projectId e.key) true,
                    Event.accessSecretVersionCall (latestName projectId e.key) true,
                    Event.addSecretVersionCall (secretName projectId e.key) (utf8Bytes e.value) false,
                    Event.warning (noLatestWarning e.key),
                    Event.addSecretVersionCall (secretName projectId e.key) (utf8Bytes e.value) false])
            (addAfterAccessFailMsg e.key errB))) ∧
    (∀ resp errA,
      env.getSecret (secretName projectId e.key)
        (countGet (secretName projectId e.key) tr) = Except.ok () →
      env.accessSecretVersion (latestName projectId e.key)
        (countAccess (latestName projectId e.key) tr) = Except.ok resp →
      currentData resp = none →
      env.addSecretVersion (secretName projectId e.key) (utf8Bytes e.value)
        (countAdd (secretName projectId e.key) tr) = Except.error errA →
      errA.code = some 5 →
      (env.addSecretVersion (secretName projectId e.key) (utf8Bytes e.value)
          (countAdd (secretName projectId e.key) tr + 1) = Except.ok () →
        processEntry env projectId e tr upd =
          StepResult.ok
            (tr ++ [Event.getSecretCall (secretName projectId e.key) true,
                    Event.accessSecretVersionCall (latestName projectId e.key) true,
                    Event.warning (noDataWarning e.key),
                    Event.addSecretVersionCall (secretName projectId e.key) (utf8Bytes e.value) false,
                    Event.warning (noLatestWarning e.key),
                    Event.addSecretVersionCall (secretName projectId e.key) (utf8Bytes e.value) true])
            (upd ++ [e.key])) ∧
      (∀ errB es,
        env.addSecretVersion (secretName projectId e.key) (utf8Bytes e.value)
          (countAdd (secretName projectId e.key) tr + 1) = Except.error errB →
        runEntries env projectId (e :: es) tr upd =
          StepResult.fatal
            (tr ++ [Event.getSecretCall (secretName projectId e.key) true,
                    Event.accessSecretVersionCall (latestName projectId e.key) true,
                    Event.warning (noDataWarning e.key),
                    Event.addSecretVersionCall (secretName projectId e.key) (utf8Bytes e.value) false,
                    Event.warning (noLatestWarning e.key),
                    Event.addSecretVersionCall (secretName projectId e.key) (utf8Bytes e.value) false])
            (addAfterAccessFailMsg e.key errB))) := by
  constructor
  · intro resp cur errA hget hacc hcur hne hadd1 hcodeA
    constructor
    · intro hadd2
      simp [processEntry, updateCatch, hget, hacc, hcur, hne, hadd1, hcodeA, hadd2]
    · intro errB es hadd2
      apply runEntries_cons_fatal
      simp [processEntry, updateCatch, hget, hacc, hcur, hne, hadd1, hcodeA, hadd2]
  · intro resp errA hget hacc hcur hadd1 hcodeA
    constructor
    · intro hadd2
      simp [processEntry, updateCatch, hget, hacc, hcur, hadd1, hcodeA, hadd2]
    · intro errB es hadd2
      apply runEntries_cons_fatal
      simp [processEntry, updateCatch, hget, hacc, hcur, hadd1, hcodeA, hadd2]

theorem C10_retry_add_version_witness :
    processEntry envFlakyAdd "p" { key := "K", value := "new" } [] [] =
      StepResult.ok
        [Event.getSecretCall (secretName "p" "K") true,
         Event.accessSecretVersionCall (latestName "p" "K") true,
         Event.addSecretVersionCall (secretName "p" "K") (utf8Bytes "new") false,
         Event.warning (noLatestWarning "K"),
         Event.addSecretVersionCall (secretName "p" "K") (utf8Bytes "new") true] ["K"] :=
  ((C10_retry_add_version envFlakyAdd "p" { key := "K", value := "new" } [] []).1
    { payload := some { data := some "old" } } "old" errAddGone
    rfl rfl rfl (by decide) rfl rfl).1 rfl

/-- C5: a non-NOT_FOUND failure of an entry's existence check, create
step, or update step (access, the add-version of the different-value and
missing-payload branches, or the retried add-version after a code-5)
aborts the run with a message naming the key and the underlying cause,
processes no later entry, and the success output is never emitted. -/
theorem C5_fatal_abort (env : Env) (projectId : String) (e : SecretEntry)
    (tr : List Event) (upd : List String) :
    (∀ err es,
      env.getSecret (secretName projectId e.key)
        (countGet (secretName projectId e.key) tr) = Except.error err →
      err.code ≠ some 5 →
      runEntries env projectId (e :: es) tr upd =
        StepResult.fatal (tr ++ [Event.getSecretCall (secretName projectId e.key) false])
          (checkFailMsg e.key err)) ∧
    (∀ err err2 es,
      env.getSecret (secretName projectId e.key)
        (countGet (secretName projectId e.key) tr) = Except.error err →
      err.code = some 5 →
      env.createSecret (parentName projectId) e.key (countCreate e.key tr) = Except.error err2 →
      err2.code ≠ some 5 →
      runEntries env projectId (e :: es) tr upd =
        StepResult.fatal
          (tr ++ [Event.getSecretCall (secretName projectId e.key) false,
                  Event.createSecretCall (parentName projectId) e.key ReplicationPolicy.automatic false])
          (createFailMsg e.key err2)) ∧
    (∀ err err3 es,
      env.getSecret (secretName projectId e.key)
        (countGet (secretName projectId e.key) tr) = Except.error err →
      err.code = some 5 →
      env.createSecret (parentName projectId) e.key (countCreate e.key tr) = Except.ok () →
      env.addSecretVersion (secretName projectId e.key) (utf8Bytes e.value)
        (countAdd (secretName projectId e.key) tr) = Except.error err3 →
      err3.code ≠ some 5 →
      runEntries env projectId (e :: es) tr upd =
        StepResult.fatal
          (tr ++ [Event.getSecretCall (secretName projectId e.key) false,
                  Event.createSecretCall (parentName projectId) e.key ReplicationPolicy.automatic true,
                  Event.addSecretVersionCall (secretName projectId e.key) (utf8Bytes e.value) false])
          (createFailMsg e.key err3)) ∧
    (∀ err es,
      env.getSecret (secretName projectId e.key)
        (countGet (secretName projectId e.key) tr) = Except.ok () →
      env.accessSecretVersion (latestName projectId e.key)
        (countAccess (latestName projectId e.key) tr) = Except.error err →
      err.code ≠ some 5 →
      runEntries env projectId (e :: es) tr upd =
        StepResult.fatal
          (tr ++ [Event.getSecretCall (secretName projectId e.key) true,
                  Event.accessSecretVersionCall (latestName projectId e.key) false])
          (accessFailMsg e.key err)) ∧
    (∀ resp cur err es,
      env.getSecret (secretName projectId e.key)
        (countGet (secretName projectId e.key) tr) = Except.ok () →
      env.accessSecretVersion (latestName projectId e.key)
        (countAccess (latestName projectId e.key) tr) = Except.ok resp →
      currentData resp = some cur → cur ≠ e.value →
      env.addSecretVersion (secretName projectId e.key) (utf8Bytes e.value)
        (countAdd (secretName projectId e.key) tr) = Except.error err →
      err.code ≠ some 5 →
      runEntries env projectId (e :: es) tr upd =
        StepResult.fatal
          (tr ++ [Event.getSecretCall (secretName projectId e.key) true,
                  Event.accessSecretVersionCall (latestName projectId e.key) true,
                  Event.addSecretVersionCall (secretName projectId e.key) (utf8Bytes e.value) false])
          (accessFailMsg e.key err)) ∧
    (∀ resp err es,
      env.getSecret (secretName projectId e.key)
        (countGet (secretName projectId e.key) tr) = Except.ok () →
      env.accessSecretVersion (latestName projectId e.key)
        (countAccess (latestName projectId e.key) tr) = Except.ok resp →
      currentData resp = none →
      env.addSecretVersion (secretName projectId e.key) (utf8Bytes e.value)
        (countAdd (secretName projectId e.key) tr) = Except.error err →
      err.code ≠ some 5 →
      runEntries env projectId (e :: es) tr upd =
        StepResult.fatal
          (tr ++ [Event.getSecretCall (secretName projectId e.key) true,
                  Event.accessSecretVersionCall (latestName projectId e.key) true,
                  Event.warning (noDataWarning e.key),
                  Event.addSecretVersionCall (secretName projectId e.key) (utf8Bytes e.value) false])
          (accessFailMsg e.key err)) ∧
    (∀ errA err2 es,
      env.getSecret (secretName projectId e.key)
        (countGet (secretName projectId e.key) tr) = Except.ok () →
      env.accessSecretVersion (latestName projectId e.key)
        (countAccess (latestName projectId e.key) tr) = Except.error errA →
      errA.code = some 5 →
      env.addSecretVersion (secretName projectId e.key) (utf8Bytes e.value)
        (countAdd (secretName projectId e.key) tr) = Except.error err2 →
      err2.code ≠ some 5 →
      runEntries env projectId (e :: es) tr upd =
        StepResult.fatal
          (tr ++ [Event.getSecretCall (secretName projectId e.key) true,
                  Event.accessSecretVersionCall (latestName projectId e.key) false,
                  Event.warning (noLatestWarning e.key),
                  Event.addSecretVersionCall (secretName projectId e.key) (utf8Bytes e.value) false])
          (addAfterAccessFailMsg e.key err2)) ∧
    (∀ resp cur errA err2 es,
      env.getSecret (secretName projectId e.key)
        (countGet (secretName projectId e.key) tr) = Except.ok () →
      env.accessSecretVersion (latestName projectId e.key)
        (countAccess (latestName projectId e.key) tr) = Except.ok resp →
      currentData resp = some cur → cur ≠ e.value →
      env.addSecretVersion (secretName projectId e.key) (utf8Bytes e.value)
        (countAdd (secretName projectId e.key) tr) = Except.error errA →
      errA.code = some 5 →
      env.addSecretVersion (secretName projectId e.key) (utf8Bytes e.value)
        (countAdd (secretName projectId e.key) tr + 1) = Except.error err2 →
      err2.code ≠ some 5 →
      runEntries env projectId (e :: es) tr upd =
        StepResult.fatal
          (tr ++ [Event.getSecretCall (secretName projectId e.key) true,
                  Event.accessSecretVersionCall (latestName projectId e.key) true,
                  Event.addSecretVersionCall (secretName projectId e.key) (utf8Bytes e.value) false,
                  Event.warning (noLatestWarning e.key),
                  Event.addSecretVersionCall (secretName projectId e.key) (utf8Bytes e.value) false])
          (addAfterAccessFailMsg e.key err2)) ∧
    (∀ resp errA err2 es,
      env.getSecret (secretName projectId e.key)
        (countGet (secretName projectId e.key) tr) = Except.ok () →
      env.accessSecretVersion (latestName projectId e.key)
        (countAccess (latestName projectId e.key) tr) = Except.ok resp →
      currentData resp = none →
      env.addSecretVersion (secretName projectId e.key) (utf8Bytes e.value)
        (countAdd (secretName projectId e.key) tr) = Except.error errA →
      errA.code = some 5 →
      env.addSecretVersion (secretName projectId e.key) (utf8Bytes e.value)
        (countAdd (secretName projectId e.key) tr + 1) = Except.error err2 →
      err2.code ≠ some 5 →
      runEntries env projectId (e :: es) tr upd =
        StepResult.fatal
          (tr ++ [Event.getSecretCall (secretName projectId e.key) true,
                  Event.accessSecretVersionCall (latestName projectId e.key) true,
                  Event.warning (noDataWarning e.key),
                  Event.addSecretVersionCall (secretName projectId e.key) (utf8Bytes e.value) false,
                  Event.warning (noLatestWarning e.key),
                  Event.addSecretVersionCall (secretName projectId e.key) (utf8Bytes e.value) false])
          (addAfterAccessFailMsg e.key err2)) ∧
    (∀ secrets tr2 m,
      (∀ e2 ∈ parseSecrets secrets, e2.key ≠ "") →
      runEntries env projectId (parseSecrets secrets) [] [] = StepResult.fatal tr2 m →
      run projectId secrets env = (Outcome.failed m, tr2)) := by
  refine ⟨?_, ?_, ?_, ?_, ?_, ?_, ?_, ?_, ?_, ?_⟩
  · intro err es hget hcode
    apply runEntries_cons_fatal
    simp [processEntry, hget, hcode]
  · intro err err2 es hget hcode hcreate _
    apply runEntries_cons_fatal
    simp [processEntry, hget, hcode, hcreate]
  · intro err err3 es hget hcode hcreate hadd _
    apply runEntries_cons_fatal
    simp [processEntry, hget, hcode, hcreate, hadd]
  · intro err es hget hacc hcode
    apply runEntries_cons_fatal
    simp [processEntry, updateCatch, hget, hacc, hcode]
  · intro resp cur err es hget hacc hcur hne hadd hcode
    apply runEntries_cons_fatal
    simp [processEntry, updateCatch, hget, hacc, hcur, hne, hadd, hcode]
  · intro resp err es hget hacc hcur hadd hcode
    apply runEntries_cons_fatal
    simp [processEntry, updateCatch, hget, hacc, hcur, hadd, hcode]
  · intro errA err2 es hget hacc hcodeA hadd2 _
    apply runEntries_cons_fatal
    simp [processEntry, updateCatch, hget, hacc, hcodeA, hadd2]
  · intro resp cur errA err2 es hget hacc hcur hne hadd1 hcodeA hadd2 _
    apply runEntries_cons_fatal
    simp [processEntry, updateCatch, hget, hacc, hcur, hne, hadd1, hcodeA, hadd2]
  · intro resp errA err2 es hget hacc hcur hadd1 hcodeA hadd2 _
    apply runEntries_cons_fatal
    simp [processEntry, updateCatch, hget, hacc, hcur, hadd1, hcodeA, hadd2]
  · intro secrets tr2 m hkeys hfatal
    have hb : (parseSecrets secrets).any (fun s => s.key = "") = false := by
      rw [← Bool.not_eq_true, List.any_eq_true]
      simp only [decide_eq_true_eq]
      push_neg
      exact hkeys
    simp [run, hb, hfatal]

theorem C5_fatal_abort_witness :
    runEntries envCheckFail "p" [{ key := "K", value := "v" }] [] [] =
      StepResult.fatal [Event.getSecretCall (secretName "p" "K") false]
        (checkFailMsg "K" errPerm) ∧
    run "p" "K=v" envCheckFail =
      (Outcome.failed (checkFailMsg "K" errPerm),
       [Event.getSecretCall (secretName "p" "K") false]) :=
  ⟨(C5_fatal_abort envCheckFail "p" { key := "K", value := "v" } [] []).1
     errPerm [] rfl (by decide),
   (C5_fatal_abort envCheckFail "p" { key := "K", value := "v" } [] []).2.2.2.2.2.2.2.2.2
     "K=v" [Event.getSecretCall (secretName "p" "K") false] (checkFailMsg "K" errPerm)
     (by decide)
     ((C5_fatal_abort envCheckFail "p" { key := "K", value := "v" } [] []).1
       errPerm [] rfl (by decide))⟩

@[simp] theorem succAdds_nil (projectId key : String) : succAdds projectId key [] = 0 := rfl

@[simp] theorem succCreates_nil (key : String) : succCreates key [] = 0 := rfl

@[simp] theorem succAdds_append (projectId key : String) (l1 l2 : List Event) :
    succAdds projectId key (l1 ++ l2) =
      succAdds projectId key l1 + succAdds projectId key l2 := by
  simp [succAdds, List.countP_append]

@[simp] theorem succCreates_append (key : String) (l1 l2 : List Event) :
    succCreates key (l1 ++ l2) = succCreates key l1 + succCreates key l2 := by
  simp [succCreates, List.countP_append]

theorem succWrites_append (projectId key : String) (l1 l2 : List Event) :
    succWrites projectId key (l1 ++ l2) =
      succWrites projectId key l1 + succWrites projectId key l2 := by
  simp [succWrites]
  omega

@[simp] theorem succAdds_cons_get (projectId key n : String) (b : Bool) (l : List Event) :
    succAdds projectId key (Event.getSecretCall n b :: l) = succAdds projectId key l := by
  simp [succAdds, List.countP_cons, isSuccAdd]

@[simp] theorem succAdds_cons_create (projectId key p sid : String) (r : ReplicationPolicy)
    (b : Bool) (l : List Event) :
    succAdds projectId key (Event.createSecretCall p sid r b :: l) =
      succAdds projectId key l := by
  cases b <;> simp [succAdds, List.countP_cons, isSuccAdd]

@[simp] theorem succAdds_cons_add_true (projectId key p : String) (d : List Nat)
    (l : List Event) :
    succAdds projectId key (Event.addSecretVersionCall p d true :: l) =
      (if p = secretName projectId key then 1 else 0) + succAdds projectId key l := by
  simp [succAdds, List.countP_cons, isSuccAdd]
  split <;> simp [Nat.add_comm]

@[simp] theorem succAdds_cons_add_false (projectId key p : String) (d : List Nat)
    (l : List Event) :
    succAdds projectId key (Event.addSecretVersionCall p d false :: l) =
      succAdds projectId key l := by
  simp [succAdds, List.countP_cons, isSuccAdd]

@[simp] theorem succAdds_cons_access (projectId key n : String) (b : Bool) (l : List Event) :
    succAdds projectId key (Event.accessSecretVersionCall n b :: l) =
      succAdds projectId key l := by
  simp [succAdds, List.countP_cons, isSuccAdd]

@[simp] theorem succAdds_cons_warning (projectId key m : String) (l : List Event) :
    succAdds projectId key (Event.warning m :: l) = succAdds projectId key l := by
  simp [succAdds, List.countP_cons, isSuccAdd]

@[simp] theorem succAdds_cons_info (projectId key m : String) (l : List Event) :
    succAdds projectId key (Event.info m :: l) = succAdds projectId key l := by
  simp [succAdds, List.countP_cons, isSuccAdd]

@[simp] theorem succCreates_cons_get (key n : String) (b : Bool) (l : List Event) :
    succCreates key (Event.getSecretCall n b :: l) = succCreates key l := by
  simp [succCreates, List.countP_cons, isSuccCreate]

@[simp] theorem succCreates_cons_create_true (key p sid : String) (r : ReplicationPolicy)
    (l : List Event) :
    succCreates key (Event.createSecretCall p sid r true :: l) =
      (if sid = key then 1 else 0) + succCreates key l := by
  simp [succCreates, List.countP_cons, isSuccCreate]
  split <;> simp [Nat.add_comm]

@[simp] theorem succCreates_cons_create_false (key p sid : String) (r : ReplicationPolicy)
    (l : List Event) :
    succCreates key (Event.createSecretCall p sid r false :: l) = succCreates key l := by
  simp [succCreates, List.countP_cons, isSuccCreate]

@[simp] theorem succCreates_cons_add (key p : String) (d : List Nat) (b : Bool)
    (l : List Event) :
    succCreates key (Event.addSecretVersionCall p d b :: l) = succCreates key l := by
  cases b <;> simp [succCreates, List.countP_cons, isSuccCreate]

@[simp] theorem succCreates_cons_access (key n : String) (b : Bool) (l : List Event) :
    succCreates key (Event.accessSecretVersionCall n b :: l) = succCreates key l := by
  simp [succCreates, List.countP_cons, isSuccCreate]

@[simp] theorem succCreates_cons_warning (key m : String) (l : List Event) :
    succCreates key (Event.warning m :: l) = succCreates key l := by
  simp [succCreates, List.countP_cons, isSuccCreate]

@[simp] theorem succCreates_cons_info (key m : String) (l : List Event) :
    succCreates key (Event.info m :: l) = succCreates key l := by
  simp [succCreates, List.countP_cons, isSuccCreate]

theorem string_append_left_cancel {a b c : String} (h : a ++ b = a ++ c) : b = c := by
  have hd : a.data ++ b.data = a.data ++ c.data := congrArg String.data h
  have he : b.data = c.data := List.append_cancel_left hd
  cases b
  cases c
  exact congrArg String.mk he

theorem secretName_inj {projectId a b : String}
    (h : secretName projectId a = secretName projectId b) : a = b := by
  unfold secretName at h
  exact string_append_left_cancel h

/-- Helper: the update-path catch block succeeds only through its single
retried add-version call, pushing exactly the entry's key. -/
theorem updateCatch_ok_spec (env : Env) (projectId : String) (e : SecretEntry)
    (trc : List Event) (upd : List String) (err : Thrown)
    (tr1 : List Event) (upd1 : List String)
    (h : updateCatch env projectId e trc upd err = StepResult.ok tr1 upd1) :
    tr1 = trc ++ [Event.warning (noLatestWarning e.key),
                  Event.addSecretVersionCall (secretName projectId e.key) (utf8Bytes e.value) true] ∧
    upd1 = upd ++ [e.key] := by
  simp only [updateCatch] at h
  split at h
  · split at h
    · injection h with h1 h2
      subst h1
      subst h2
      simp
    · simp at h
  · simp at h

/-- Helper: a successfully processed entry extends the trace by events
that write only to its own key, with at most one successful add-version
call and at most one successful create call, and it appends its key to
the updated list exactly when some write call succeeded. -/
theorem processEntry_ok_spec (env : Env) (projectId : String) (e : SecretEntry)
    (tr : List Event) (upd : List String) (tr1 : List Event) (upd1 : List String)
    (h : processEntry env projectId e tr upd = StepResult.ok tr1 upd1) :
    ∃ d : List Event, tr1 = tr ++ d ∧
      (∀ k, k ≠ e.key → succAdds projectId k d = 0 ∧ succCreates k d = 0) ∧
      succAdds projectId e.key d ≤ 1 ∧ succCreates e.key d ≤ 1 ∧
      ((upd1 = upd ∧ succWrites projectId e.key d = 0) ∨
       (upd1 = upd ++ [e.key] ∧ 0 < succWrites projectId e.key d)) := by
  have hinj : ∀ k : String, k ≠ e.key → ¬(secretName projectId e.key = secretName projectId k) :=
    fun k hk hh => hk (secretName_inj hh).symm
  simp only [processEntry] at h
  split at h
  · -- getSecret raised
    split at h
    · -- code 5: create path
      split at h
      · simp at h
      · -- createSecret ok
        split at h
        · simp at h
        · -- addSecretVersion ok
          injection h with h1 h2
          subst h1
          subst h2
          refine ⟨[Event.getSecretCall (secretName projectId e.key) false,
                   Event.createSecretCall (parentName projectId) e.key ReplicationPolicy.automatic true,
                   Event.addSecretVersionCall (secretName projectId e.key) (utf8Bytes e.value) true],
                  by simp, ?_, ?_, ?_, ?_⟩
          · intro k hk
            constructor
            · simp [if_neg (hinj k hk)]
            · simp [if_neg (fun hh : e.key = k => hk hh.symm)]
          · simp
          · simp
          · right
            exact ⟨rfl, by simp [succWrites]⟩
    · simp at h
  · -- getSecret ok
    split at h
    · -- accessSecretVersion raised: the catch block
      rcases updateCatch_ok_spec _ _ _ _ _ _ _ _ h with ⟨h1, h2⟩
      subst h1
      subst h2
      refine ⟨[Event.getSecretCall (secretName projectId e.key) true,
               Event.accessSecretVersionCall (latestName projectId e.key) false,
               Event.warning (noLatestWarning e.key),
               Event.addSecretVersionCall (secretName projectId e.key) (utf8Bytes e.value) true],
              by simp, ?_, ?_, ?_, ?_⟩
      · intro k hk
        constructor
        · simp [if_neg (hinj k hk)]
        · simp
      · simp
      · simp
      · right
        exact ⟨rfl, by simp [succWrites]⟩
    · -- accessSecretVersion succeeded
      split at h
      · -- payload data absent
        split at h
        · -- add ok
          injection h with h1 h2
          subst h1
          subst h2
          refine ⟨[Event.getSecretCall (secretName projectId e.key) true,
                   Event.accessSecretVersionCall (latestName projectId e.key) true,
                   Event.warning (noDataWarning e.key),
                   Event.addSecretVersionCall (secretName projectId e.key) (utf8Bytes e.value) true],
                  by simp, ?_, ?_, ?_, ?_⟩
          · intro k hk
            constructor
            · simp [if_neg (hinj k hk)]
            · simp
          · simp
          · simp
          · right
            exact ⟨rfl, by simp [succWrites]⟩
        · -- add failed: catch block
          rcases updateCatch_ok_spec _ _ _ _ _ _ _ _ h with ⟨h1, h2⟩
          subst h1
          subst h2
          refine ⟨[Event.getSecretCall (secretName projectId e.key) true,
                   Event.accessSecretVersionCall (latestName projectId e.key) true,
                   Event.warning (noDataWarning e.key),
                   Event.addSecretVersionCall (secretName projectId e.key) (utf8Bytes e.value) false,
                   Event.warning (noLatestWarning e.key),
                   Event.addSecretVersionCall (secretName projectId e.key) (utf8Bytes e.value) true],
                  by simp, ?_, ?_, ?_, ?_⟩
          · intro k hk
            constructor
            · simp [if_neg (hinj k hk)]
            · simp
          · simp
          · simp
          · right
            exact ⟨rfl, by simp [succWrites]⟩
      · -- payload data present: compare
        split at h
        · -- equal: no-op
          injection h with h1 h2
          subst h1
          subst h2
          refine ⟨[Event.getSecretCall (secretName projectId e.key) true,
                   Event.accessSecretVersionCall (latestName projectId e.key) true,
                   Event.info (upToDateInfo e.key)],
                  by simp, ?_, ?_, ?_, ?_⟩
          · intro k hk
            exact ⟨by simp, by simp⟩
          · simp
          · simp
          · left
            exact ⟨rfl, by simp [succWrites]⟩
        · -- different: add a version
          split at h
          · -- add ok
            injection h with h1 h2
            subst h1
            subst h2
            refine ⟨[Event.getSecretCall (secretName projectId e.key) true,
                     Event.accessSecretVersionCall (latestName projectId e.key) true,
                     Event.addSecretVersionCall (secretName projectId e.key) (utf8Bytes e.value) true,
                     Event.info (updatedInfo e.key)],
                    by simp, ?_, ?_, ?_, ?_⟩
            · intro k hk
              constructor
              · simp [if_neg (hinj k hk)]
              · simp
            · simp
            · simp
            · right
              exact ⟨rfl, by simp [succWrites]⟩
          · -- add failed: catch block
            rcases updateCatch_ok_spec _ _ _ _ _ _ _ _ h with ⟨h1, h2⟩
            subst h1
            subst h2
            refine ⟨[Event.getSecretCall (secretName projectId e.key) true,
                     Event.accessSecretVersionCall (latestName projectId e.key) true,
                     Event.addSecretVersionCall (secretName projectId e.key) (utf8Bytes e.value) false,
                     Event.warning (noLatestWarning e.key),
                     Event.addSecretVersionCall (secretName projectId e.key) (utf8Bytes e.value) true],
                    by simp, ?_, ?_, ?_, ?_⟩
            · intro k hk
              constructor
              · simp [if_neg (hinj k hk)]
              · simp
            · simp
            · simp
            · right
              exact ⟨rfl, by simp [succWrites]⟩

/-- Helper: invariants preserved along a successful entry loop: the
updated list stays duplicate-free, it holds exactly the keys with a
successful write in the trace, and every key has at most one successful
add-version and at most one successful create call. -/
theorem runEntries_ok_spec (env : Env) (projectId : String) (es : List SecretEntry) :
    ∀ (tr : List Event) (upd : List String) (tr1 : List Event) (upd1 : List String),
    runEntries env projectId es tr upd = StepResult.ok tr1 upd1 →
    (es.map SecretEntry.key).Nodup →
    upd.Nodup →
    (∀ k, k ∈ upd ↔ 0 < succWrites projectId k tr) →
    (∀ k, succAdds projectId k tr ≤ 1 ∧ succCreates k tr ≤ 1) →
    (∀ e2 ∈ es, succWrites projectId e2.key tr = 0 ∧ e2.key ∉ upd) →
    upd1.Nodup ∧ (∀ k, k ∈ upd1 ↔ 0 < succWrites projectId k tr1) ∧
      (∀ k, succAdds projectId k tr1 ≤ 1 ∧ succCreates k tr1 ≤ 1) := by
  induction es with
  | nil =>
    intro tr upd tr1 upd1 h _ h2 h3 h4 _
    simp only [runEntries] at h
    injection h with ha hb
    subst ha
    subst hb
    exact ⟨h2, h3, h4⟩
  | cons e es ih =>
    intro tr upd tr1 upd1 h hnod hundup hmem hcnt hfresh
    simp only [runEntries] at h
    cases hpe : processEntry env projectId e tr upd with
    | fatal trf m =>
      rw [hpe] at h
      simp at h
    | ok trA updA =>
      rw [hpe] at h
      obtain ⟨d, hd, hother, hA1, hC1, hpush⟩ := processEntry_ok_spec _ _ _ _ _ _ _ hpe
      subst hd
      obtain ⟨hknotin, hnod2⟩ := List.nodup_cons.mp hnod
      obtain ⟨hw0, hnotin⟩ := hfresh e (List.mem_cons_self e es)
      have hA0 : succAdds projectId e.key tr = 0 := by
        unfold succWrites at hw0
        omega
      have hC0 : succCreates e.key tr = 0 := by
        unfold succWrites at hw0
        omega
      have hundupA : updA.Nodup := by
        rcases hpush with ⟨h1, _⟩ | ⟨h1, _⟩
        · rw [h1]
          exact hundup
        · rw [h1]
          simp [List.nodup_append, hundup, hnotin]
      have hmemA : ∀ k, k ∈ updA ↔ 0 < succWrites projectId k (tr ++ d) := by
        intro k
        by_cases hk : k = e.key
        · subst hk
          rw [succWrites_append, hw0, Nat.zero_add]
          rcases hpush with ⟨h1, h0⟩ | ⟨h1, hpos⟩
          · rw [h1, h0]
            simp [hnotin]
          · rw [h1]
            simp [hpos]
        · have hdk : succWrites projectId k d = 0 := by
            obtain ⟨ha, hc⟩ := hother k hk
            simp [succWrites, ha, hc]
          rw [succWrites_append, hdk, Nat.add_zero]
          rcases hpush with ⟨h1, _⟩ | ⟨h1, _⟩
          · rw [h1]
            exact hmem k
          · rw [h1, List.mem_append]
            simp only [List.mem_singleton, hk, or_false]
            exact hmem k
      have hcntA : ∀ k, succAdds projectId k (tr ++ d) ≤ 1 ∧ succCreates k (tr ++ d) ≤ 1 := by
        intro k
        by_cases hk : k = e.key
        · subst hk
          rw [succAdds_append, succCreates_append, hA0, hC0]
          omega
        · obtain ⟨ha, hc⟩ := hother k hk
          obtain ⟨ha2, hc2⟩ := hcnt k
          rw [succAdds_append, succCreates_append, ha, hc]
          omega
      have hfreshA : ∀ e2 ∈ es, succWrites projectId e2.key (tr ++ d) = 0 ∧ e2.key ∉ updA := by
        intro e2 he2
        have hne : e2.key ≠ e.key := by
          intro hh
          apply hknotin
          rw [← hh]
          exact List.mem_map_of_mem SecretEntry.key he2
        obtain ⟨hw2, hni2⟩ := hfresh e2 (List.mem_cons_of_mem e he2)
        obtain ⟨ha, hc⟩ := hother e2.key hne
        constructor
        · rw [succWrites_append, hw2, Nat.zero_add]
          simp [succWrites, ha, hc]
        · rcases hpush with ⟨h1, _⟩ | ⟨h1, _⟩
          · rw [h1]
            exact hni2
          · rw [h1]
            simp [hni2, hne]
      exact ih (tr ++ d) updA tr1 upd1 h hnod2 hundupA hmemA hcntA hfreshA

/-- C8 counterexample: with the duplicate-key input `A=1,A=2` and a
service where the secret exists with a stale value, the run succeeds,
reports `A` twice in updated_secrets, and adds two versions to the same
secret in one run. -/
theorem C8_counterexample :
    (run "p" "A=1,A=2" (envExistsData "zzz")).1 = Outcome.success ["A", "A"] ∧
    ¬ (["A", "A"] : List String).Nodup ∧
    succAdds "p" "A" (run "p" "A=1,A=2" (envExistsData "zzz")).2 = 2 := by
  refine ⟨by decide, by decide, by decide⟩

/-- C8 (amended): for every successful run whose parsed entries have
pairwise-distinct keys, updated_secrets is duplicate-free, it contains
exactly the keys for which a create or add-version call succeeded, and at
most one version is added (and at most one create issued) per key. -/
theorem C8_amended_distinct_keys (projectId secrets : String) (env : Env)
    (upd : List String) (tr : List Event)
    (hnodup : ((parseSecrets secrets).map SecretEntry.key).Nodup)
    (hrun : run projectId secrets env = (Outcome.success upd, tr)) :
    upd.Nodup ∧ (∀ k, k ∈ upd ↔ 0 < succWrites projectId k tr) ∧
      (∀ k, succAdds projectId k tr ≤ 1 ∧ succCreates k tr ≤ 1) := by
  simp only [run] at hrun
  split at hrun
  · simp at hrun
  · cases hre : runEntries env projectId (parseSecrets secrets) [] [] with
    | ok trX updX =>
      rw [hre] at hrun
      have h2 := runEntries_ok_spec env projectId (parseSecrets secrets) [] [] trX updX
        hre hnodup List.nodup_nil (by intro k; simp [succWrites]) (by intro k; simp)
        (by intro e2 _; simp [succWrites])
      injection hrun with hr1 hr2
      injection hr1 with hr1
      rw [← hr1, ← hr2]
      exact h2
    | fatal trX m =>
      rw [hre] at hrun
      simp at hrun

theorem C8_amended_distinct_keys_witness :
    (["A", "B"] : List String).Nodup ∧
    ("A" ∈ (["A", "B"] : List String) ↔
      0 < succWrites "p" "A" (run "p" "A=1,B=2" envAbsentOk).2) :=
  have h := C8_amended_distinct_keys "p" "A=1,B=2" envAbsentOk ["A", "B"]
    (run "p" "A=1,B=2" envAbsentOk).2 (by decide) rfl
  ⟨h.1, h.2.1 "A"⟩
